import Mathlib

/-
  Verification development for the frame_jig table-building pipeline.

  The embedding models src/src/frame_jig.py (class DFBuilder) and the
  zip-container stream opener of src/tests/SG_PoiMerge.py
  (CoreBuilderL.file_open, zip branch).

  A pandas DataFrame is modelled as a Table: an ordered list of column
  names together with rows; each row is a row key (the pandas index
  value) paired with an association list from column name to cell value.
  A column name absent from the association list of a row denotes a
  missing cell (NaN), which is how pandas concat fills unmatched
  columns.  Cell values are integers, which covers every table the
  claims mention.
-/

namespace FrameJig

abbrev Value := Int

/-- One row of a table: cells indexed by column name; an absent name is
a missing cell (NaN). -/
abbrev Row := List (String × Value)

/-- In-memory column-oriented relation: ordered column names plus rows,
each row carrying its index key. -/
structure Table where
  cols : List String
  rows : List (Int × Row)
deriving Repr, DecidableEq, Inhabited

/-- Errors surfaced by the embedded pipeline.  Each constructor
corresponds to a concrete Python exception site:
noDataSource is the ValueError in DFBuilder.build;
keepIndexError is the IndexError from keep_columns[0] on an empty list;
schemaError is the pandas KeyError from frame[keep_columns] when a
column is missing; suffixIndexError is the IndexError from
suffixes[idx]; mergeKeyError is the pandas KeyError for a missing join
key; mergeOverlapError is the pandas merge error for colliding columns
whose two suffixes are equal; mergeNoKeys is the pandas MergeError when
no join keys can be inferred; mergeBadSpec covers key combinations the
pipeline never produces; mergeBadHow is the pandas error for an invalid
how string. -/
inductive BuildError where
  | noDataSource
  | keepIndexError
  | schemaError (c : String)
  | suffixIndexError (idx : Nat)
  | mergeKeyError (c : String)
  | mergeOverlapError (c : String)
  | mergeNoKeys
  | mergeBadSpec
  | mergeBadHow (how : String)
deriving Repr, DecidableEq

instance {e a : Type} [DecidableEq e] [DecidableEq a] : DecidableEq (Except e a) :=
  fun x y =>
  match x, y with
  | .ok u, .ok v =>
    if h : u = v then isTrue (by rw [h]) else isFalse (fun hh => h (by cases hh; rfl))
  | .error u, .error v =>
    if h : u = v then isTrue (by rw [h]) else isFalse (fun hh => h (by cases hh; rfl))
  | .ok _, .error _ => isFalse (fun hh => Except.noConfusion hh)
  | .error _, .ok _ => isFalse (fun hh => Except.noConfusion hh)

/-- First element of ks that is not a column of cols; pandas raises its
KeyError for such a column when projecting. -/
def firstMissing (ks cols : List String) : Option String :=
  ks.find? (fun c => !(cols.contains c))

/-- Restrict a row to the columns in ks, in ks order.  Cells absent
from the row stay absent (NaN). -/
def projectRow (ks : List String) (r : Row) : Row :=
  ks.filterMap (fun c => (r.lookup c).map (fun v => (c, v)))

/-- Pure column projection, frame[ks], assuming every name in ks is a
column of t. -/
def Table.projectPure (t : Table) (ks : List String) : Table :=
  ⟨ks, t.rows.map (fun kr => (kr.1, projectRow ks kr.2))⟩

/-- frame[ks] with the pandas failure mode: a KeyError (schemaError)
when ks mentions a column absent from the frame. -/
def Table.projectE (t : Table) (ks : List String) : Except BuildError Table :=
  match firstMissing ks t.cols with
  | some c => .error (.schemaError c)
  | none => .ok (t.projectPure ks)

/-- big_df.columns = [x + suffix for x in big_df.columns]: rename every
column by appending the suffix. -/
def Table.addSuffix (t : Table) (s : String) : Table :=
  ⟨t.cols.map (fun c => c ++ s),
   t.rows.map (fun kr => (kr.1, kr.2.map (fun cv => (cv.1 ++ s, cv.2))))⟩

/-- pd.concat([t1, t2]): row-wise stack.  Columns are the first frame
columns followed by the new columns of the second, rows are appended in
order with their keys preserved; cells of a row under a column its own
frame lacked are missing (NaN). -/
def Table.vconcat (t1 t2 : Table) : Table :=
  ⟨t1.cols ++ t2.cols.filter (fun c => !(t1.cols.contains c)), t1.rows ++ t2.rows⟩

/-- Join-key tuple of a row for the key columns ks; none when a key
cell is missing (a NaN key matches nothing in pandas). -/
def keyTuple (ks : List String) (r : Row) : Option (List Value) :=
  ks.mapM (fun c => r.lookup c)

/-- Rename the colliding columns of a row with a suffix, leaving key
columns (keys) untouched. -/
def renameRow (collide keys : List String) (s : String) (r : Row) : Row :=
  r.map (fun cv =>
    if keys.contains cv.1 then cv
    else if collide.contains cv.1 then (cv.1 ++ s, cv.2) else cv)

/-- Rename the colliding entries of a column-name list with a suffix,
leaving key columns untouched. -/
def renameCols (collide keys : List String) (s : String) (cols : List String) :
    List String :=
  cols.map (fun c =>
    if keys.contains c then c
    else if collide.contains c then c ++ s else c)

/-- Row and column computation of the merge on shared named keys (the
pandas on= argument) once the keys and collisions have been validated:
key columns appear once, unsuffixed; other colliding columns get the
side suffix; rows are matched on equal key tuples and the result is
reindexed 0,1,2,... -/
def mergeOnPure (l r : Table) (how : String) (ks collide : List String)
    (suf : String × String) : Table :=
  let cols := renameCols collide ks suf.1 l.cols ++
    renameCols collide ks suf.2 (r.cols.filter (fun c => !(ks.contains c)))
  let rside : Row → Row := fun row =>
    renameRow collide ks suf.2 (row.filter (fun cv => !(ks.contains cv.1)))
  let matchRows : Row → List (Int × Row) := fun lrow =>
    r.rows.filter (fun rr =>
      (keyTuple ks lrow).isSome && (keyTuple ks rr.2 == keyTuple ks lrow))
  let keyCells : Row → Row := fun row =>
    ks.filterMap (fun c => (row.lookup c).map (fun v => (c, v)))
  let innerRows :=
    l.rows.flatMap (fun lr =>
      (matchRows lr.2).map (fun rr => renameRow collide ks suf.1 lr.2 ++ rside rr.2))
  let leftRows :=
    l.rows.flatMap (fun lr =>
      match matchRows lr.2 with
      | [] => [renameRow collide ks suf.1 lr.2]
      | ms => ms.map (fun rr => renameRow collide ks suf.1 lr.2 ++ rside rr.2))
  let rightUnmatched :=
    r.rows.filter (fun rr =>
      l.rows.all (fun lr =>
        !((keyTuple ks lr.2).isSome && (keyTuple ks rr.2 == keyTuple ks lr.2))))
  let rightExtra := rightUnmatched.map (fun rr => keyCells rr.2 ++ rside rr.2)
  let chosen :=
    if how = "inner" then innerRows
    else if how = "left" then leftRows
    else if how = "right" then innerRows ++ rightExtra
    else leftRows ++ rightExtra
  ⟨cols, (chosen.enum).map (fun ri => ((ri.1 : Int), ri.2))⟩

/-- pandas merge on named key columns present on both sides: validate
the keys on each side, then the collision/suffix rule (equal suffixes
on a collision are a merge error). -/
def mergeOn (l r : Table) (how : String) (ks : List String)
    (suf : String × String) : Except BuildError Table :=
  match firstMissing ks l.cols with
  | some c => .error (.mergeKeyError c)
  | none =>
  match firstMissing ks r.cols with
  | some c => .error (.mergeKeyError c)
  | none =>
    match l.cols.filter (fun c => r.cols.contains c && !(ks.contains c)) with
    | c0 :: cs =>
      if suf.1 = suf.2 then .error (.mergeOverlapError c0) else
        .ok (mergeOnPure l r how ks (c0 :: cs) suf)
    | [] => .ok (mergeOnPure l r how ks [] suf)

/-- Row and column computation of the index-on-both-sides merge once
collisions have been validated: rows are matched on equal row keys,
every colliding column name gets its side suffix, and the matched key
is kept as the result row key. -/
def mergeIndexPure (l r : Table) (how : String) (collide : List String)
    (suf : String × String) : Table :=
  let cols := renameCols collide [] suf.1 l.cols ++ renameCols collide [] suf.2 r.cols
  let innerRows :=
    l.rows.flatMap (fun lr =>
      (r.rows.filter (fun rr => rr.1 == lr.1)).map (fun rr =>
        (lr.1, renameRow collide [] suf.1 lr.2 ++ renameRow collide [] suf.2 rr.2)))
  let leftRows :=
    l.rows.flatMap (fun lr =>
      match r.rows.filter (fun rr => rr.1 == lr.1) with
      | [] => [(lr.1, renameRow collide [] suf.1 lr.2)]
      | ms => ms.map (fun rr =>
          (lr.1, renameRow collide [] suf.1 lr.2 ++ renameRow collide [] suf.2 rr.2)))
  let rightExtra :=
    (r.rows.filter (fun rr => l.rows.all (fun lr => !(rr.1 == lr.1)))).map
      (fun rr => (rr.1, renameRow collide [] suf.2 rr.2))
  let chosen :=
    if how = "inner" then innerRows
    else if how = "left" then leftRows
    else if how = "right" then innerRows ++ rightExtra
    else leftRows ++ rightExtra
  ⟨cols, chosen⟩

/-- pandas merge with left_index=True and right_index=True. -/
def mergeIndex (l r : Table) (how : String) (suf : String × String) :
    Except BuildError Table :=
  match l.cols.filter (fun c => r.cols.contains c) with
  | c0 :: cs =>
    if suf.1 = suf.2 then .error (.mergeOverlapError c0) else
      .ok (mergeIndexPure l r how (c0 :: cs) suf)
  | [] => .ok (mergeIndexPure l r how [] suf)

/-- Row and column computation of the left_on/right_on merge once keys
and collisions have been validated: both key columns are kept and every
colliding name (keys included) gets its side suffix. -/
def mergeOn2Pure (l r : Table) (how : String) (lks rks collide : List String)
    (suf : String × String) : Table :=
  let cols := renameCols collide [] suf.1 l.cols ++ renameCols collide [] suf.2 r.cols
  let matchRows : Row → List (Int × Row) := fun lrow =>
    r.rows.filter (fun rr =>
      (keyTuple lks lrow).isSome && (keyTuple rks rr.2 == keyTuple lks lrow))
  let innerRows :=
    l.rows.flatMap (fun lr =>
      (matchRows lr.2).map (fun rr =>
        renameRow collide [] suf.1 lr.2 ++ renameRow collide [] suf.2 rr.2))
  let leftRows :=
    l.rows.flatMap (fun lr =>
      match matchRows lr.2 with
      | [] => [renameRow collide [] suf.1 lr.2]
      | ms => ms.map (fun rr =>
          renameRow collide [] suf.1 lr.2 ++ renameRow collide [] suf.2 rr.2))
  let rightExtra :=
    (r.rows.filter (fun rr =>
      l.rows.all (fun lr =>
        !((keyTuple lks lr.2).isSome && (keyTuple rks rr.2 == keyTuple lks lr.2))))).map
      (fun rr => renameRow collide [] suf.2 rr.2)
  let chosen :=
    if how = "inner" then innerRows
    else if how = "left" then leftRows
    else if how = "right" then innerRows ++ rightExtra
    else leftRows ++ rightExtra
  ⟨cols, (chosen.enum).map (fun ri => ((ri.1 : Int), ri.2))⟩

/-- pandas merge with left_on and right_on. -/
def mergeOn2 (l r : Table) (how : String) (lks rks : List String)
    (suf : String × String) : Except BuildError Table :=
  match firstMissing lks l.cols with
  | some c => .error (.mergeKeyError c)
  | none =>
  match firstMissing rks r.cols with
  | some c => .error (.mergeKeyError c)
  | none =>
    match l.cols.filter (fun c => r.cols.contains c) with
    | c0 :: cs =>
      if suf.1 = suf.2 then .error (.mergeOverlapError c0) else
        .ok (mergeOn2Pure l r how lks rks (c0 :: cs) suf)
    | [] => .ok (mergeOn2Pure l r how lks rks [] suf)

/-- big_df.merge(temp_df, how, on, left_on, right_on, left_index,
right_index, suffixes): dispatch over the key specification exactly as
the build method forwards its configuration to pandas.  With no keys
and no index flags pandas infers the common columns and fails when
there are none.  Key-specification mixtures that pandas rejects, and
that no caller in this repository produces, are mergeBadSpec; an
unknown how string is mergeBadHow. -/
def mergeTables (l r : Table) (how : String) (onKeys lo ro : Option (List String))
    (li ri : Bool) (suf : String × String) : Except BuildError Table :=
  if !(how = "inner" || how = "left" || how = "right" || how = "outer") then
    .error (.mergeBadHow how)
  else
    match onKeys, lo, ro, li, ri with
    | some ks, none, none, false, false => mergeOn l r how ks suf
    | none, some lks, some rks, false, false => mergeOn2 l r how lks rks suf
    | none, none, none, true, true => mergeIndex l r how suf
    | none, none, none, false, false =>
      match l.cols.filter (fun c => r.cols.contains c) with
      | [] => .error .mergeNoKeys
      | c :: cs => mergeOn l r how (c :: cs) suf
    | _, _, _, _, _ => .error .mergeBadSpec

/-- Instance state of a DFBuilder, mirroring the attributes set by the
constructor.  The files and keepColumns attributes are Options because
the build method tests them against None, although the constructor and
accessors always store lists (None arguments are normalised to lists),
so the none states are unreachable through the class interface. -/
structure Config where
  files : Option (List (List String))
  path : String
  keepColumns : Option (List String)
  axis : Nat
  suffixes : Option (List String)
  how : String
  onKeys : Option (List String)
  left_on : Option (List String)
  right_on : Option (List String)
  left_index : Bool
  right_index : Bool

/-- The DFBuilder constructor over the argument shapes the claims use:
a files argument that is None, a flat list of strings, or a list of
lists; a columns argument that is None or a list.  Mirrors the
normalisation in the constructor: files None becomes [], a flat list is
wrapped in one group, columns None becomes []. -/
def DFBuilder.init (files : Option (List (List String) ⊕ List String))
    (path : Option String) (columns : Option (List String)) (axis : Nat)
    (suffixes : Option (List String)) (how : String)
    (onKeys left_on right_on : Option (List String))
    (left_index right_index : Bool) : Config :=
  { files :=
      match files with
      | none => some []
      | some (.inl fss) => some fss
      | some (.inr fs) => some [fs]
    path := path.getD ""
    keepColumns := some (columns.getD [])
    axis := axis
    suffixes := suffixes
    how := how
    onKeys := onKeys
    left_on := left_on
    right_on := right_on
    left_index := left_index
    right_index := right_index }

/-- The columns accessor: with an argument it replaces keep_columns,
and it always returns the current value. -/
def DFBuilder.columnsAcc (cfg : Config) (arg : Option (List String)) :
    Config × Option (List String) :=
  match arg with
  | some cs => ({ cfg with keepColumns := some cs }, some cs)
  | none => (cfg, cfg.keepColumns)

/-- The external collaborators of the build method: glob expands one
path-plus-pattern string into an ordered list of concrete sources, and
parse gives the Tables read_csv produces from the streams that
file_open yields for one source (one Table per stream, in yield order).
Parameterising over parse covers every file_open override. -/
structure Env where
  glob : String → List String
  parse : String → List Table

/-- The wildcard-resolution step of build: keep_columns is replaced by
the columns of the Table at hand when it is None or its first element
is the wildcard; reading the first element of an empty list is an
IndexError. -/
def resolveKeep (keep : Option (List String)) (tcols : List String) :
    Except BuildError (List String) :=
  match keep with
  | none => .ok tcols
  | some [] => .error .keepIndexError
  | some (c :: cs) => if c = "*" then .ok tcols else .ok (c :: cs)

/-- The clean method of the base class: keep only the configured
columns, frame[keep_columns]. -/
def DFBuilder.clean (keepColumns : List String) (frame : Table) :
    Except BuildError Table :=
  frame.projectE keepColumns

/-- The per-iteration suffix pair of build: ["", suffixes[idx]] when a
suffix list is configured (an out-of-range idx is an IndexError),
["", ""] otherwise. -/
def suffixPair (suffixes : Option (List String)) (idx : Nat) :
    Except BuildError (String × String) :=
  match suffixes with
  | some ss =>
    match ss[idx]? with
    | some s => .ok ("", s)
    | none => .error (.suffixIndexError idx)
  | none => .ok ("", "")

/-- The first-frame special case of build: the first Table becomes the
accumulator, with every column renamed by suffixes[0] when a suffix
list is configured.  The headD is only evaluated on a nonempty list,
because suffixPair has already checked idx against the length. -/
def firstFrame (suffixes : Option (List String)) (td : Table) : Table :=
  match suffixes with
  | some ss => td.addSuffix (ss.headD "")
  | none => td

/-- The mutable loop state of build: the keep_columns attribute and the
accumulator big_df. -/
structure LoopState where
  keep : Option (List String)
  big : Option Table

/-- The body of the inner loop of build for one parsed Table at file
index idx: resolve the wildcard, clean (project), compute the suffix
pair, then either install the first frame, stack (axis 0), merge
(axis 1), or leave the accumulator unchanged (any other axis). -/
def buildStep (cfg : Config) (idx : Nat) (st : LoopState) (t : Table) :
    Except BuildError LoopState :=
  match resolveKeep st.keep t.cols with
  | .error e => .error e
  | .ok ks =>
  match DFBuilder.clean ks t with
  | .error e => .error e
  | .ok td =>
  match suffixPair cfg.suffixes idx with
  | .error e => .error e
  | .ok suf =>
    match st.big with
    | none => .ok ⟨some ks, some (firstFrame cfg.suffixes td)⟩
    | some b =>
      if cfg.axis = 0 then .ok ⟨some ks, some (b.vconcat td)⟩
      else if cfg.axis = 1 then
        match mergeTables b td cfg.how cfg.onKeys cfg.left_on cfg.right_on
            cfg.left_index cfg.right_index suf with
        | .error e => .error e
        | .ok m => .ok ⟨some ks, some m⟩
      else .ok ⟨some ks, some b⟩

/-- One file of the outer loop of build: fold the inner loop over the
Tables parsed from the streams of that file. -/
def buildFile (cfg : Config) (env : Env) (idx : Nat) (st : LoopState)
    (f : String) : Except BuildError LoopState :=
  (env.parse f).foldlM (buildStep cfg idx) st

/-- The outer loop of build over the expanded file list, with the
enumerate index counting files. -/
def buildFiles (cfg : Config) (env : Env) (st : LoopState) (idx : Nat) :
    List String → Except BuildError LoopState
  | [] => .ok st
  | f :: rest =>
    match buildFile cfg env idx st f with
    | .error e => .error e
    | .ok st2 => buildFiles cfg env st2 (idx + 1) rest

/-- The file-list expansion of build: glob every pattern of every group
against path plus pattern and extend one flat list, preserving order. -/
def expandFiles (cfg : Config) (env : Env) : List String :=
  (cfg.files.getD []).foldl (fun acc group =>
    group.foldl (fun acc2 block => acc2 ++ env.glob (cfg.path ++ block)) acc) []

/-- The observable outcome of one build call: the returned dataframe
(None when no Table was parsed) and the final keep_columns state of the
instance. -/
structure BuildOk where
  table : Option Table
  keep : Option (List String)
deriving Repr, DecidableEq

/-- DFBuilder.build: fail when the files attribute is None, expand the
configured patterns, then run the per-file loop starting from an unset
accumulator and the configured keep_columns. -/
def DFBuilder.build (cfg : Config) (env : Env) : Except BuildError BuildOk :=
  match cfg.files with
  | none => .error .noDataSource
  | some _ =>
    match buildFiles cfg env ⟨cfg.keepColumns, none⟩ 0 (expandFiles cfg env) with
    | .error e => .error e
    | .ok st => .ok ⟨st.big, st.keep⟩

/-- The dataframe a build call returns, without the instance state. -/
def DFBuilder.buildTable (cfg : Config) (env : Env) :
    Except BuildError (Option Table) :=
  match DFBuilder.build cfg env with
  | .error e => .error e
  | .ok r => .ok r.table

/-- One entry of a zip archive: its name and its byte content. -/
structure ZipEntry where
  name : String
  content : List Nat
deriving Repr, DecidableEq

/-- A zip archive: its entries in archive order (namelist order). -/
structure Archive where
  entries : List ZipEntry
deriving Repr, DecidableEq

/-- The dataset predicate of the zip branch of CoreBuilderL.file_open:
the first four characters of the entry name are core and the name ends
with gz or csv, stated on the character data of the name. -/
def coreQualifies (name : String) : Bool :=
  (name.data.take 4 == "core".data) &&
    ("gz".data.isSuffixOf name.data || "csv".data.isSuffixOf name.data)

/-- z.open(sub_file): the content of the first entry carrying the
name. -/
def zipOpen (ar : Archive) (name : String) : Option (List Nat) :=
  (ar.entries.find? (fun e => e.name = name)).map (fun e => e.content)

/-- The zip branch of CoreBuilderL.file_open: filter the name list to
the qualifying entries, then, only when more than one entry qualifies,
yield one stream per qualifying name in archive order; with one or zero
qualifying entries nothing is yielded. -/
def CoreBuilderL.fileOpenZip (ar : Archive) : List (List Nat) :=
  let zContents := (ar.entries.map (fun e => e.name)).filter coreQualifies
  if zContents.length > 1 then
    zContents.filterMap (fun n => zipOpen ar n)
  else []

/-- Environment with two concrete sources named f1 and f2, each
yielding one parsed Table. -/
def envTwo (f1 f2 : String) (t1 t2 : Table) : Env :=
  ⟨fun s => if s = f1 || s = f2 then [s] else [],
   fun s => if s = f1 then [t1] else if s = f2 then [t2] else []⟩

/-- Environment with one concrete source yielding one parsed Table. -/
def envOne (f : String) (t : Table) : Env :=
  ⟨fun s => if s = f then [s] else [], fun s => if s = f then [t] else []⟩

/-- Environment whose glob is the identity on single patterns, so a
configured file group is its own expansion. -/
def listEnv (parse : String → List Table) : Env :=
  ⟨fun s => [s], parse⟩

/-- Rows of an optional accumulator: the unset accumulator has no
rows. -/
def optRows : Option Table → List (Int × Row)
  | none => []
  | some t => t.rows

/-- One stacking step of the accumulator: the first Table is installed
verbatim, later ones are concatenated below. -/
def stackAppend : Option Table → Table → Table
  | none, td => td
  | some b, td => b.vconcat td

/-- Stack-mode configuration with a fixed column list and no suffixes,
over one group of concrete file names. -/
def stackCfg (kc fs : List String) : Config :=
  ⟨some [fs], "", some kc, 0, none, "inner", none, none, none, false, false⟩

/-- Fold a list of cleaned Tables into the accumulator by stacking. -/
def stackFoldTables (big : Option Table) (tds : List Table) : Option Table :=
  tds.foldl (fun b td => some (stackAppend b td)) big

/-- Fold the per-file lists of cleaned Tables into the accumulator by
stacking, in file order. -/
def stackFoldAll (big : Option Table) (tdss : List (List Table)) : Option Table :=
  tdss.foldl (fun b tds => stackFoldTables b tds) big

/-- All rows of the per-file lists of cleaned Tables, in order. -/
def rowsAll (tdss : List (List Table)) : List (Int × Row) :=
  (tdss.map (fun tds => (tds.map Table.rows).flatten)).flatten

/-- Column names of the Table a build outcome carries, when any. -/
def resultCols (x : Except BuildError BuildOk) : Option (List String) :=
  match x with
  | .ok r => r.table.map Table.cols
  | .error _ => none

/-- The a.csv Table of the end-to-end join scenario: rows (id,val) =
(1,10) and (2,20). -/
def tabA : Table := ⟨["id", "val"], [(0, [("id", 1), ("val", 10)]), (1, [("id", 2), ("val", 20)])]⟩

/-- The b.csv Table of the end-to-end join scenario: row (id,val) =
(1,100). -/
def tabB : Table := ⟨["id", "val"], [(0, [("id", 1), ("val", 100)])]⟩

/-- The end-to-end scenario configuration: columns [id,val], axis 1,
how inner, on id, suffixes [_x,_y], built through the constructor. -/
def joinScenarioCfg : Config :=
  DFBuilder.init (some (.inr ["a.csv", "b.csv"])) none (some ["id", "val"]) 1
    (some ["_x", "_y"]) "inner" (some ["id"]) none none false false

/-- The end-to-end scenario environment. -/
def joinScenarioEnv : Env := envTwo "a.csv" "b.csv" tabA tabB

/-- Left source of the value-suffixing scenario. -/
def tabValL : Table := ⟨["value"], [(1, [("value", 10)])]⟩

/-- Right source of the value-suffixing scenario. -/
def tabValR : Table := ⟨["value"], [(1, [("value", 20)])]⟩

/-- Join of two sources that both contain the column value, with
suffixes [_a,_b], joined on the row index on both sides. -/
def valueJoinCfg : Config :=
  ⟨some [["l.csv", "r.csv"]], "", some ["value"], 1, some ["_a", "_b"], "inner",
   none, none, none, true, true⟩

/-- A default-constructed builder: no files, no path, no columns. -/
def defaultCfg : Config :=
  DFBuilder.init none none none 0 none "inner" none none none false false

/-- Wildcard columns over the two sources a and b. -/
def wildcardTwoCfg : Config :=
  ⟨some [["a", "b"]], "", some ["*"], 0, none, "inner", none, none, none, false, false⟩

/-- Wildcard columns over the single source a. -/
def wildcardOneCfg : Config :=
  ⟨some [["a"]], "", some ["*"], 0, none, "inner", none, none, none, false, false⟩

/-- An empty configured column list over the single source a. -/
def emptyColsCfg : Config :=
  ⟨some [["a"]], "", some [], 0, none, "inner", none, none, none, false, false⟩

/-- A first source with native columns A and B. -/
def tabAB : Table := ⟨["A", "B"], [(0, [("A", 1), ("B", 2)])]⟩

/-- A later source lacking column B. -/
def tabAonly : Table := ⟨["A"], [(0, [("A", 3)])]⟩

/-- A later source with a superset of the first columns, in another
order. -/
def tabBAC : Table := ⟨["B", "A", "C"], [(7, [("B", 5), ("A", 6), ("C", 9)])]⟩

/-- One source but a two-entry suffix list. -/
def longSuffixCfg : Config :=
  ⟨some [["a"]], "", some ["id"], 0, some ["_a", "_b"], "inner", none, none, none, false, false⟩

/-- Two sources but a one-entry suffix list, over any axis. -/
def shortSuffixCfg (axis : Nat) (s0 : String) : Config :=
  ⟨some [["a", "b"]], "", some ["k"], axis, some [s0], "inner", none, none, none, false, false⟩

/-- A one-column table keyed by k, used to instantiate suffix-length
theorems. -/
def tabK : Table := ⟨["k"], [(0, [("k", 1)])]⟩

/-- Archive with exactly one qualifying entry (core1.csv) and two
non-qualifying entries. -/
def arOneQual : Archive :=
  ⟨[⟨"core1.csv", [1, 2, 3]⟩, ⟨"readme.txt", [9]⟩, ⟨"data.bin", [8]⟩]⟩

/-- Archive with two qualifying entries (core1.csv, core2.gz) and two
non-qualifying entries. -/
def arTwoQual : Archive :=
  ⟨[⟨"core1.csv", [1, 2, 3]⟩, ⟨"readme.txt", [9]⟩, ⟨"core2.gz", [4, 5]⟩, ⟨"data.bin", [8]⟩]⟩

/-- Configuration reading the single zip source z.zip with wildcard
columns. -/
def zipCfg : Config :=
  ⟨some [["z.zip"]], "", some ["*"], 0, none, "inner", none, none, none, false, false⟩

/-- Environment for z.zip whose streams parse to no Tables. -/
def zipEnv : Env := ⟨fun s => if s = "z.zip" then [s] else [], fun _ => []⟩

/-- A pattern source whose expansion has two matches, both parsing to
no Tables. -/
def patternCfg : Config :=
  ⟨some [["p*"]], "", some ["c"], 0, none, "inner", none, none, none, false, false⟩

/-- Environment expanding any pattern to m1 and m2 and parsing nothing
from either. -/
def patternEnv : Env := ⟨fun _ => ["m1", "m2"], fun _ => []⟩

/-- Stack source x of the partition scenario. -/
def tabX : Table := ⟨["val"], [(0, [("val", 10)])]⟩

/-- Stack source y of the partition scenario. -/
def tabY : Table := ⟨["val"], [(0, [("val", 20)])]⟩

/-- Stack-mode configuration with a configured suffix list, over one
group of concrete file names. -/
def stackSuffixCfg (fs : List String) : Config :=
  ⟨some [fs], "", some ["val"], 0, some ["_a", "_b"], "inner", none, none, none, false, false⟩

/-- Parse map of the partition scenarios: x gives tabX, y gives tabY. -/
def stackParse : String → List Table :=
  fun s => if s = "x" then [tabX] else if s = "y" then [tabY] else []

theorem firstMissing_self (ks : List String) : firstMissing ks ks = none := by
  rw [firstMissing, List.find?_eq_none]
  intro x hx
  simp [hx]

theorem projectE_of_none (t : Table) (ks : List String)
    (h : firstMissing ks t.cols = none) :
    t.projectE ks = .ok (t.projectPure ks) := by
  rw [Table.projectE, h]

theorem projectE_of_some (t : Table) (ks : List String) (c : String)
    (h : firstMissing ks t.cols = some c) :
    t.projectE ks = .error (.schemaError c) := by
  rw [Table.projectE, h]

theorem projectE_self (t : Table) : t.projectE t.cols = .ok (t.projectPure t.cols) :=
  projectE_of_none t t.cols (firstMissing_self t.cols)

theorem resolveKeep_fixed (c : String) (cs tc : List String) (h : c ≠ "*") :
    resolveKeep (some (c :: cs)) tc = .ok (c :: cs) := by
  simp [resolveKeep, h]

theorem buildFiles_parse_empty (cfg : Config) (env : Env) :
    ∀ (fs : List String) (st : LoopState) (idx : Nat),
      (∀ f ∈ fs, env.parse f = []) →
      buildFiles cfg env st idx fs = .ok st := by
  intro fs
  induction fs with
  | nil => intro st idx _; rfl
  | cons f rest ih =>
    intro st idx hp
    have hf : env.parse f = [] := hp f (List.mem_cons_self f rest)
    have hr : ∀ g ∈ rest, env.parse g = [] :=
      fun g hg => hp g (List.mem_cons_of_mem f hg)
    rw [buildFiles, buildFile, hf]
    exact ih st (idx + 1) hr

theorem buildStep_ok3 (cfg : Config) (idx : Nat) (st : LoopState) (t : Table)
    (ks : List String) (td : Table) (suf : String × String)
    (hk : resolveKeep st.keep t.cols = .ok ks)
    (hp : DFBuilder.clean ks t = .ok td)
    (hs : suffixPair cfg.suffixes idx = .ok suf) :
    buildStep cfg idx st t =
      (match st.big with
       | none => .ok ⟨some ks, some (firstFrame cfg.suffixes td)⟩
       | some b =>
         if cfg.axis = 0 then .ok ⟨some ks, some (b.vconcat td)⟩
         else if cfg.axis = 1 then
           match mergeTables b td cfg.how cfg.onKeys cfg.left_on cfg.right_on
               cfg.left_index cfg.right_index suf with
           | .error e => .error e
           | .ok m => .ok ⟨some ks, some m⟩
         else .ok ⟨some ks, some b⟩) := by
  rw [buildStep]
  simp only [hk, hp, hs]

theorem buildStep_errClean (cfg : Config) (idx : Nat) (st : LoopState) (t : Table)
    (ks : List String) (e : BuildError)
    (hk : resolveKeep st.keep t.cols = .ok ks)
    (hp : DFBuilder.clean ks t = .error e) :
    buildStep cfg idx st t = .error e := by
  rw [buildStep]
  simp only [hk, hp]

theorem buildStep_errSuffix (cfg : Config) (idx : Nat) (st : LoopState) (t : Table)
    (ks : List String) (td : Table) (e : BuildError)
    (hk : resolveKeep st.keep t.cols = .ok ks)
    (hp : DFBuilder.clean ks t = .ok td)
    (hs : suffixPair cfg.suffixes idx = .error e) :
    buildStep cfg idx st t = .error e := by
  rw [buildStep]
  simp only [hk, hp, hs]

theorem zipOpen_cons_ne (e : ZipEntry) (rest : List ZipEntry) (n : String)
    (hne : n ≠ e.name) :
    zipOpen ⟨e :: rest⟩ n = zipOpen ⟨rest⟩ n := by
  rw [zipOpen, zipOpen, List.find?_cons_of_neg]
  intro hcontra
  simp only [decide_eq_true_eq] at hcontra
  exact hne hcontra.symm

theorem fileOpen_zip_all_aux (entries : List ZipEntry)
    (hnd : (entries.map (fun e => e.name)).Nodup) :
    ((entries.map (fun e => e.name)).filter coreQualifies).filterMap
        (fun n => zipOpen ⟨entries⟩ n) =
      (entries.filter (fun e => coreQualifies e.name)).map (fun e => e.content) := by
  induction entries with
  | nil => rfl
  | cons e rest ih =>
    rw [List.map_cons] at hnd
    have hnotin := (List.nodup_cons.mp hnd).1
    have hnd2 := (List.nodup_cons.mp hnd).2
    have hstep : ∀ n ∈ (rest.map (fun x => x.name)).filter coreQualifies,
        zipOpen ⟨e :: rest⟩ n = zipOpen ⟨rest⟩ n := by
      intro n hn
      have hn2 : n ∈ rest.map (fun x => x.name) := List.mem_of_mem_filter hn
      exact zipOpen_cons_ne e rest n (fun h => hnotin (h ▸ hn2))
    have hcongr : ((rest.map (fun x => x.name)).filter coreQualifies).filterMap
          (fun n => zipOpen ⟨e :: rest⟩ n) =
        (rest.filter (fun x => coreQualifies x.name)).map (fun x => x.content) := by
      rw [List.filterMap_congr hstep, ih hnd2]
    by_cases hq : coreQualifies e.name
    · have hfl : List.filter coreQualifies (e.name :: List.map (fun x => x.name) rest) =
          e.name :: List.filter coreQualifies (List.map (fun x => x.name) rest) :=
        List.filter_cons_of_pos hq
      have hfr : List.filter (fun x => coreQualifies x.name) (e :: rest) =
          e :: List.filter (fun x => coreQualifies x.name) rest :=
        List.filter_cons_of_pos hq
      have hopen : zipOpen ⟨e :: rest⟩ e.name = some e.content := by
        rw [zipOpen, List.find?_cons_of_pos]
        · rfl
        · simp
      rw [List.map_cons, hfl, hfr, List.filterMap_cons]
      simp only [hopen]
      rw [List.map_cons, hcongr]
    · have hfl : List.filter coreQualifies (e.name :: List.map (fun x => x.name) rest) =
          List.filter coreQualifies (List.map (fun x => x.name) rest) :=
        List.filter_cons_of_neg hq
      have hfr : List.filter (fun x => coreQualifies x.name) (e :: rest) =
          List.filter (fun x => coreQualifies x.name) rest :=
        List.filter_cons_of_neg hq
      rw [List.map_cons, hfl, hfr, hcongr]

/-- C1: a builder whose configured source list is empty does not fail:
the constructor normalises a missing files argument to the empty list,
so the no-data-source guard in build (which only fires on a None files
attribute) is passed, and build() returns None without touching any
source: the outcome is the same for every environment, so no glob, open
or parse can have been observed. -/
theorem claim1_empty_sources_build_returns_none :
    defaultCfg.files = some [] ∧
    ∀ env : Env, DFBuilder.build defaultCfg env = .ok ⟨none, some []⟩ :=
  ⟨rfl, fun _ => rfl⟩

/-- C2 counterexample: the end-to-end scenario of the spec does not
produce a one-row Table; build() fails with the pandas KeyError on the
join key id. -/
theorem claim2_counterexample :
    DFBuilder.buildTable joinScenarioCfg joinScenarioEnv =
      .error (.mergeKeyError "id") := by decide

/-- C2 amended: with suffixes [_x,_y] the first frame has every column
renamed with _x (giving id_x and val_x), so the join key id is absent
on the left side and build() fails with the pandas KeyError on id
instead of returning the one-row Table. -/
theorem claim2_amended :
    DFBuilder.build joinScenarioCfg joinScenarioEnv = .error (.mergeKeyError "id") ∧
    (firstFrame joinScenarioCfg.suffixes (tabA.projectPure ["id", "val"])).cols =
      ["id_x", "val_x"] := by decide

/-- C3 counterexample: joining two sources that both contain the column
value with suffixes [_a,_b] (row-index join on both sides) yields the
columns value_a and bare value: the collision-based suffix pair
["", "_b"] never produces value_b, and a bare value column survives. -/
theorem claim3_counterexample :
    DFBuilder.buildTable valueJoinCfg (envTwo "l.csv" "r.csv" tabValL tabValR) =
      .ok (some ⟨["value_a", "value"], [(1, [("value_a", 10), ("value", 20)])]⟩) ∧
    "value" ∈ ["value_a", "value"] ∧ ¬ "value_b" ∈ ["value_a", "value"] := by
  decide

/-- C3 amended: for every pair of row lists, joining two sources whose
columns are both exactly [value] with suffixes [_a,_b] yields the
column list [value_a, value]: the first frame is renamed wholesale with
suffixes[0] and each join passes the pair ["", suffixes[idx]] to the
merge, which only suffixes colliding names. -/
theorem claim3_amended (rows1 rows2 : List (Int × Row)) :
    resultCols (DFBuilder.build valueJoinCfg
        (envTwo "l.csv" "r.csv" ⟨["value"], rows1⟩ ⟨["value"], rows2⟩)) =
      some ["value_a", "value"] := rfl

/-- C5 counterexample: an archive holding exactly one qualifying entry
and two non-qualifying entries yields no stream at all from the zip
branch of the stream opener, not the one matching stream the claim
expects. -/
theorem claim5_counterexample :
    ((arOneQual.entries.map (fun e => e.name)).filter coreQualifies).length = 1 ∧
    (arOneQual.entries.filter (fun e => !(coreQualifies e.name))).length = 2 ∧
    CoreBuilderL.fileOpenZip arOneQual = [] := by decide

/-- C5 amended: only an archive holding more than one qualifying entry
yields streams; it then yields one stream per qualifying entry, in
archive order, each byte-for-byte the content of the directly opened
entry; an archive with exactly one qualifying entry yields nothing. -/
theorem claim5_amended (ar : Archive)
    (hnd : (ar.entries.map (fun e => e.name)).Nodup)
    (hlen : 1 < ((ar.entries.map (fun e => e.name)).filter coreQualifies).length) :
    CoreBuilderL.fileOpenZip ar =
      (ar.entries.filter (fun e => coreQualifies e.name)).map (fun e => e.content) := by
  obtain ⟨entries⟩ := ar
  simp only [CoreBuilderL.fileOpenZip]
  rw [if_pos hlen]
  exact fileOpen_zip_all_aux entries hnd

theorem claim5_witness :
    CoreBuilderL.fileOpenZip arTwoQual = [[1, 2, 3], [4, 5]] := by
  have h := claim5_amended arTwoQual (by decide) (by decide)
  exact h.trans (by decide)

/-- C6: an archive with one or zero qualifying entries yields no
streams and no error from the zip branch of the stream opener, and a
build over sources whose streams all come from such archives returns
None: the source contributes nothing. -/
theorem claim6_zip_le_one_yields_nothing (ar : Archive)
    (hlen : ((ar.entries.map (fun e => e.name)).filter coreQualifies).length ≤ 1) :
    CoreBuilderL.fileOpenZip ar = [] ∧
    ∀ (p : List Nat → Table) (cfg : Config) (env : Env) (fss : List (List String)),
      cfg.files = some fss →
      (∀ f ∈ expandFiles cfg env, env.parse f = (CoreBuilderL.fileOpenZip ar).map p) →
      DFBuilder.build cfg env = .ok ⟨none, cfg.keepColumns⟩ := by
  have hz : CoreBuilderL.fileOpenZip ar = [] := by
    simp only [CoreBuilderL.fileOpenZip]
    rw [if_neg (Nat.not_lt.mpr hlen)]
  refine ⟨hz, ?_⟩
  intro p cfg env fss hf hp
  have hp2 : ∀ f ∈ expandFiles cfg env, env.parse f = [] := by
    intro f hfm
    rw [hp f hfm, hz]
    rfl
  rw [DFBuilder.build, hf,
    buildFiles_parse_empty cfg env (expandFiles cfg env) ⟨cfg.keepColumns, none⟩ 0 hp2]

theorem claim6_witness :
    CoreBuilderL.fileOpenZip arOneQual = [] ∧
    DFBuilder.build zipCfg zipEnv = .ok ⟨none, some ["*"]⟩ := by
  have h := claim6_zip_le_one_yields_nothing arOneQual (by decide)
  exact ⟨h.1, h.2 (fun _ => ⟨[], []⟩) zipCfg zipEnv [["z.zip"]] rfl (by decide)⟩

/-- C9 counterexample: a suffix list longer than the expanded source
list (two suffixes, one source) causes no failure at all: build()
returns the first frame renamed with the first suffix. -/
theorem claim9_counterexample :
    longSuffixCfg.suffixes = some ["_a", "_b"] ∧
    (expandFiles longSuffixCfg (envOne "a" tabA)).length = 1 ∧
    DFBuilder.build longSuffixCfg (envOne "a" tabA) =
      .ok ⟨some ⟨["id_a"], [(0, [("id_a", 1)]), (1, [("id_a", 2)])]⟩, some ["id"]⟩ := by
  decide

/-- C9 amended: the suffix/source count is never checked up front; a
suffix list shorter than the expanded source list makes build() fail
with the IndexError from suffixes[idx] when the first out-of-range
source is reached (whatever the axis), and a longer list causes no
failure. -/
theorem claim9_amended (axis : Nat) (s0 : String) (t1 t2 : Table)
    (h1 : firstMissing ["k"] t1.cols = none)
    (h2 : firstMissing ["k"] t2.cols = none) :
    DFBuilder.build (shortSuffixCfg axis s0) (envTwo "a" "b" t1 t2) =
      .error (.suffixIndexError 1) := by
  have hk : ("k" : String) ≠ "*" := by decide
  have e1 : buildStep (shortSuffixCfg axis s0) 0 ⟨some ["k"], none⟩ t1 =
      .ok ⟨some ["k"], some (firstFrame (some [s0]) (t1.projectPure ["k"]))⟩ := by
    rw [buildStep_ok3 (shortSuffixCfg axis s0) 0 ⟨some ["k"], none⟩ t1 ["k"]
      (t1.projectPure ["k"]) ("", s0) (resolveKeep_fixed "k" [] t1.cols hk)
      (projectE_of_none t1 ["k"] h1) rfl]
    rfl
  have e2 : buildStep (shortSuffixCfg axis s0) 1
      ⟨some ["k"], some (firstFrame (some [s0]) (t1.projectPure ["k"]))⟩ t2 =
      .error (.suffixIndexError 1) :=
    buildStep_errSuffix (shortSuffixCfg axis s0) 1 _ t2 ["k"] (t2.projectPure ["k"]) _
      (resolveKeep_fixed "k" [] t2.cols hk) (projectE_of_none t2 ["k"] h2) rfl
  have hf1 : buildFile (shortSuffixCfg axis s0) (envTwo "a" "b" t1 t2) 0
      ⟨some ["k"], none⟩ "a" =
      .ok ⟨some ["k"], some (firstFrame (some [s0]) (t1.projectPure ["k"]))⟩ := by
    rw [buildFile]
    rw [show (envTwo "a" "b" t1 t2).parse "a" = [t1] from rfl]
    rw [List.foldlM_cons, e1]
    rfl
  have hf2 : buildFile (shortSuffixCfg axis s0) (envTwo "a" "b" t1 t2) 1
      ⟨some ["k"], some (firstFrame (some [s0]) (t1.projectPure ["k"]))⟩ "b" =
      .error (.suffixIndexError 1) := by
    rw [buildFile]
    rw [show (envTwo "a" "b" t1 t2).parse "b" = [t2] from rfl]
    rw [List.foldlM_cons, e2]
    rfl
  have hbf : buildFiles (shortSuffixCfg axis s0) (envTwo "a" "b" t1 t2)
      ⟨some ["k"], none⟩ 0 ["a", "b"] = .error (.suffixIndexError 1) := by
    rw [buildFiles, hf1]
    show buildFiles (shortSuffixCfg axis s0) (envTwo "a" "b" t1 t2)
      ⟨some ["k"], some (firstFrame (some [s0]) (t1.projectPure ["k"]))⟩ 1 ["b"] =
      .error (.suffixIndexError 1)
    rw [buildFiles, hf2]
  have hfinal : DFBuilder.build (shortSuffixCfg axis s0) (envTwo "a" "b" t1 t2) =
      (match buildFiles (shortSuffixCfg axis s0) (envTwo "a" "b" t1 t2)
          ⟨some ["k"], none⟩ 0 ["a", "b"] with
       | .error e => .error e
       | .ok st => .ok (⟨st.big, st.keep⟩ : BuildOk)) := rfl
  rw [hfinal, hbf]

theorem claim9_witness :
    DFBuilder.build (shortSuffixCfg 0 "_a") (envTwo "a" "b" tabK tabK) =
      .error (.suffixIndexError 1) :=
  claim9_amended 0 "_a" tabK tabK (by decide) (by decide)

/-- C10: a build in which no Table is ever parsed (the file list is
empty, every pattern expands to nothing, or every expanded source
yields no streams) returns None without raising, leaving keep_columns
untouched. -/
theorem claim10_no_tables_returns_none (cfg : Config) (env : Env)
    (fss : List (List String)) (hf : cfg.files = some fss)
    (hp : ∀ f ∈ expandFiles cfg env, env.parse f = []) :
    DFBuilder.build cfg env = .ok ⟨none, cfg.keepColumns⟩ := by
  rw [DFBuilder.build, hf,
    buildFiles_parse_empty cfg env (expandFiles cfg env) ⟨cfg.keepColumns, none⟩ 0 hp]

theorem claim10_witness :
    DFBuilder.build patternCfg patternEnv = .ok ⟨none, some ["c"]⟩ :=
  claim10_no_tables_returns_none patternCfg patternEnv [["p*"]] rfl (by decide)

/-- C4: with wildcard columns over two sources, the column list
resolves to the columns of the first parsed Table and sticks: when the
second source carries all of those columns its Table is projected to
exactly that list (in that order) and stacked; when it lacks one, the
build fails with the schema error naming the first missing column
rather than silently dropping it. -/
theorem claim4_wildcard_sticky_schema (t1 t2 : Table)
    (hne : t1.cols ≠ []) (hw : t1.cols.head? ≠ some "*") :
    (firstMissing t1.cols t2.cols = none →
      DFBuilder.build wildcardTwoCfg (envTwo "a" "b" t1 t2) =
        .ok ⟨some ((t1.projectPure t1.cols).vconcat (t2.projectPure t1.cols)),
             some t1.cols⟩) ∧
    (∀ c, firstMissing t1.cols t2.cols = some c →
      DFBuilder.build wildcardTwoCfg (envTwo "a" "b" t1 t2) =
        .error (.schemaError c)) := by
  obtain ⟨cols1, rows1⟩ := t1
  cases cols1 with
  | nil => exact absurd rfl hne
  | cons c0 cs0 =>
    have hc0 : c0 ≠ "*" := by simpa using hw
    have e1 : buildStep wildcardTwoCfg 0 ⟨some ["*"], none⟩ ⟨c0 :: cs0, rows1⟩ =
        .ok ⟨some (c0 :: cs0),
             some (Table.projectPure ⟨c0 :: cs0, rows1⟩ (c0 :: cs0))⟩ := by
      rw [buildStep_ok3 wildcardTwoCfg 0 ⟨some ["*"], none⟩ ⟨c0 :: cs0, rows1⟩
        (c0 :: cs0) (Table.projectPure ⟨c0 :: cs0, rows1⟩ (c0 :: cs0)) ("", "")
        rfl (projectE_self ⟨c0 :: cs0, rows1⟩) rfl]
      rfl
    have hf1 : buildFile wildcardTwoCfg (envTwo "a" "b" ⟨c0 :: cs0, rows1⟩ t2) 0
        ⟨some ["*"], none⟩ "a" =
        .ok ⟨some (c0 :: cs0),
             some (Table.projectPure ⟨c0 :: cs0, rows1⟩ (c0 :: cs0))⟩ := by
      rw [buildFile]
      rw [show (envTwo "a" "b" ⟨c0 :: cs0, rows1⟩ t2).parse "a" = [⟨c0 :: cs0, rows1⟩]
        from rfl]
      rw [List.foldlM_cons, e1]
      rfl
    constructor
    · intro h3
      have e2 : buildStep wildcardTwoCfg 1
          ⟨some (c0 :: cs0), some (Table.projectPure ⟨c0 :: cs0, rows1⟩ (c0 :: cs0))⟩ t2 =
          .ok ⟨some (c0 :: cs0),
               some ((Table.projectPure ⟨c0 :: cs0, rows1⟩ (c0 :: cs0)).vconcat
                 (t2.projectPure (c0 :: cs0)))⟩ := by
        rw [buildStep_ok3 wildcardTwoCfg 1
          ⟨some (c0 :: cs0), some (Table.projectPure ⟨c0 :: cs0, rows1⟩ (c0 :: cs0))⟩ t2
          (c0 :: cs0) (t2.projectPure (c0 :: cs0)) ("", "")
          (resolveKeep_fixed c0 cs0 t2.cols hc0)
          (projectE_of_none t2 (c0 :: cs0) h3) rfl]
        rfl
      have hf2 : buildFile wildcardTwoCfg (envTwo "a" "b" ⟨c0 :: cs0, rows1⟩ t2) 1
          ⟨some (c0 :: cs0), some (Table.projectPure ⟨c0 :: cs0, rows1⟩ (c0 :: cs0))⟩ "b" =
          .ok ⟨some (c0 :: cs0),
               some ((Table.projectPure ⟨c0 :: cs0, rows1⟩ (c0 :: cs0)).vconcat
                 (t2.projectPure (c0 :: cs0)))⟩ := by
        rw [buildFile]
        rw [show (envTwo "a" "b" ⟨c0 :: cs0, rows1⟩ t2).parse "b" = [t2] from rfl]
        rw [List.foldlM_cons, e2]
        rfl
      have hbf : buildFiles wildcardTwoCfg (envTwo "a" "b" ⟨c0 :: cs0, rows1⟩ t2)
          ⟨some ["*"], none⟩ 0 ["a", "b"] =
          .ok ⟨some (c0 :: cs0),
               some ((Table.projectPure ⟨c0 :: cs0, rows1⟩ (c0 :: cs0)).vconcat
                 (t2.projectPure (c0 :: cs0)))⟩ := by
        rw [buildFiles, hf1]
        show buildFiles wildcardTwoCfg (envTwo "a" "b" ⟨c0 :: cs0, rows1⟩ t2)
          ⟨some (c0 :: cs0), some (Table.projectPure ⟨c0 :: cs0, rows1⟩ (c0 :: cs0))⟩
          1 ["b"] = _
        rw [buildFiles, hf2]
        rfl
      have hfinal : DFBuilder.build wildcardTwoCfg (envTwo "a" "b" ⟨c0 :: cs0, rows1⟩ t2) =
          (match buildFiles wildcardTwoCfg (envTwo "a" "b" ⟨c0 :: cs0, rows1⟩ t2)
              ⟨some ["*"], none⟩ 0 ["a", "b"] with
           | .error e => .error e
           | .ok st => .ok (⟨st.big, st.keep⟩ : BuildOk)) := rfl
      rw [hfinal, hbf]
    · intro c h3
      have e2 : buildStep wildcardTwoCfg 1
          ⟨some (c0 :: cs0), some (Table.projectPure ⟨c0 :: cs0, rows1⟩ (c0 :: cs0))⟩ t2 =
          .error (.schemaError c) :=
        buildStep_errClean wildcardTwoCfg 1 _ t2 (c0 :: cs0) _
          (resolveKeep_fixed c0 cs0 t2.cols hc0)
          (projectE_of_some t2 (c0 :: cs0) c h3)
      have hf2 : buildFile wildcardTwoCfg (envTwo "a" "b" ⟨c0 :: cs0, rows1⟩ t2) 1
          ⟨some (c0 :: cs0), some (Table.projectPure ⟨c0 :: cs0, rows1⟩ (c0 :: cs0))⟩ "b" =
          .error (.schemaError c) := by
        rw [buildFile]
        rw [show (envTwo "a" "b" ⟨c0 :: cs0, rows1⟩ t2).parse "b" = [t2] from rfl]
        rw [List.foldlM_cons, e2]
        rfl
      have hbf : buildFiles wildcardTwoCfg (envTwo "a" "b" ⟨c0 :: cs0, rows1⟩ t2)
          ⟨some ["*"], none⟩ 0 ["a", "b"] = .error (.schemaError c) := by
        rw [buildFiles, hf1]
        show buildFiles wildcardTwoCfg (envTwo "a" "b" ⟨c0 :: cs0, rows1⟩ t2)
          ⟨some (c0 :: cs0), some (Table.projectPure ⟨c0 :: cs0, rows1⟩ (c0 :: cs0))⟩
          1 ["b"] = _
        rw [buildFiles, hf2]
      have hfinal : DFBuilder.build wildcardTwoCfg (envTwo "a" "b" ⟨c0 :: cs0, rows1⟩ t2) =
          (match buildFiles wildcardTwoCfg (envTwo "a" "b" ⟨c0 :: cs0, rows1⟩ t2)
              ⟨some ["*"], none⟩ 0 ["a", "b"] with
           | .error e => .error e
           | .ok st => .ok (⟨st.big, st.keep⟩ : BuildOk)) := rfl
      rw [hfinal, hbf]

theorem claim4_witness :
    DFBuilder.build wildcardTwoCfg (envTwo "a" "b" tabAB tabAonly) =
      .error (.schemaError "B") :=
  (claim4_wildcard_sticky_schema tabAB tabAonly (by decide) (by decide)).2 "B" (by decide)

/-- C7: a configured wildcard column list is replaced, observably, by
the columns of the first parsed Table: the build returns that list as
the new keep_columns state, the columns accessor then reports it, and a
later build on the updated state projects a differently shaped source
to the remembered list instead of re-resolving the wildcard. -/
theorem claim7_wildcard_observable (t1 t2 : Table)
    (hne : t1.cols ≠ []) (hw : t1.cols.head? ≠ some "*")
    (hsub : firstMissing t1.cols t2.cols = none) :
    DFBuilder.build wildcardOneCfg (envOne "a" t1) =
      .ok ⟨some (t1.projectPure t1.cols), some t1.cols⟩ ∧
    (DFBuilder.columnsAcc { wildcardOneCfg with keepColumns := some t1.cols } none).2 =
      some t1.cols ∧
    DFBuilder.build { wildcardOneCfg with keepColumns := some t1.cols } (envOne "a" t2) =
      .ok ⟨some (t2.projectPure t1.cols), some t1.cols⟩ := by
  obtain ⟨cols1, rows1⟩ := t1
  cases cols1 with
  | nil => exact absurd rfl hne
  | cons c0 cs0 =>
    have hc0 : c0 ≠ "*" := by simpa using hw
    refine ⟨?_, rfl, ?_⟩
    · have e1 : buildStep wildcardOneCfg 0 ⟨some ["*"], none⟩ ⟨c0 :: cs0, rows1⟩ =
          .ok ⟨some (c0 :: cs0),
               some (Table.projectPure ⟨c0 :: cs0, rows1⟩ (c0 :: cs0))⟩ := by
        rw [buildStep_ok3 wildcardOneCfg 0 ⟨some ["*"], none⟩ ⟨c0 :: cs0, rows1⟩
          (c0 :: cs0) (Table.projectPure ⟨c0 :: cs0, rows1⟩ (c0 :: cs0)) ("", "")
          rfl (projectE_self ⟨c0 :: cs0, rows1⟩) rfl]
        rfl
      have hf1 : buildFile wildcardOneCfg (envOne "a" ⟨c0 :: cs0, rows1⟩) 0
          ⟨some ["*"], none⟩ "a" =
          .ok ⟨some (c0 :: cs0),
               some (Table.projectPure ⟨c0 :: cs0, rows1⟩ (c0 :: cs0))⟩ := by
        rw [buildFile]
        rw [show (envOne "a" ⟨c0 :: cs0, rows1⟩).parse "a" = [⟨c0 :: cs0, rows1⟩] from rfl]
        rw [List.foldlM_cons, e1]
        rfl
      have hbf : buildFiles wildcardOneCfg (envOne "a" ⟨c0 :: cs0, rows1⟩)
          ⟨some ["*"], none⟩ 0 ["a"] =
          .ok ⟨some (c0 :: cs0),
               some (Table.projectPure ⟨c0 :: cs0, rows1⟩ (c0 :: cs0))⟩ := by
        rw [buildFiles, hf1]
        rfl
      have hfinal : DFBuilder.build wildcardOneCfg (envOne "a" ⟨c0 :: cs0, rows1⟩) =
          (match buildFiles wildcardOneCfg (envOne "a" ⟨c0 :: cs0, rows1⟩)
              ⟨some ["*"], none⟩ 0 ["a"] with
           | .error e => .error e
           | .ok st => .ok (⟨st.big, st.keep⟩ : BuildOk)) := rfl
      rw [hfinal, hbf]
    · have e1 : buildStep { wildcardOneCfg with keepColumns := some (c0 :: cs0) } 0
          ⟨some (c0 :: cs0), none⟩ t2 =
          .ok ⟨some (c0 :: cs0), some (t2.projectPure (c0 :: cs0))⟩ := by
        rw [buildStep_ok3 { wildcardOneCfg with keepColumns := some (c0 :: cs0) } 0
          ⟨some (c0 :: cs0), none⟩ t2 (c0 :: cs0) (t2.projectPure (c0 :: cs0)) ("", "")
          (resolveKeep_fixed c0 cs0 t2.cols hc0)
          (projectE_of_none t2 (c0 :: cs0) hsub) rfl]
        rfl
      have hf1 : buildFile { wildcardOneCfg with keepColumns := some (c0 :: cs0) }
          (envOne "a" t2) 0 ⟨some (c0 :: cs0), none⟩ "a" =
          .ok ⟨some (c0 :: cs0), some (t2.projectPure (c0 :: cs0))⟩ := by
        rw [buildFile]
        rw [show (envOne "a" t2).parse "a" = [t2] from rfl]
        rw [List.foldlM_cons, e1]
        rfl
      have hbf : buildFiles { wildcardOneCfg with keepColumns := some (c0 :: cs0) }
          (envOne "a" t2) ⟨some (c0 :: cs0), none⟩ 0 ["a"] =
          .ok ⟨some (c0 :: cs0), some (t2.projectPure (c0 :: cs0))⟩ := by
        rw [buildFiles, hf1]
        rfl
      have hfinal : DFBuilder.build { wildcardOneCfg with keepColumns := some (c0 :: cs0) }
          (envOne "a" t2) =
          (match buildFiles { wildcardOneCfg with keepColumns := some (c0 :: cs0) }
              (envOne "a" t2) ⟨some (c0 :: cs0), none⟩ 0 ["a"] with
           | .error e => .error e
           | .ok st => .ok (⟨st.big, st.keep⟩ : BuildOk)) := rfl
      rw [hfinal, hbf]

theorem claim7_witness :
    DFBuilder.build wildcardOneCfg (envOne "a" tabAB) =
      .ok ⟨some (tabAB.projectPure tabAB.cols), some tabAB.cols⟩ ∧
    (DFBuilder.columnsAcc { wildcardOneCfg with keepColumns := some tabAB.cols } none).2 =
      some tabAB.cols ∧
    DFBuilder.build { wildcardOneCfg with keepColumns := some tabAB.cols }
        (envOne "a" tabBAC) =
      .ok ⟨some (tabBAC.projectPure tabAB.cols), some tabAB.cols⟩ :=
  claim7_wildcard_observable tabAB tabBAC (by decide) (by decide) (by decide)

/-- C7 counterexample: an empty configured column list is not replaced
by the first Table columns; reading its first element raises an
IndexError as soon as the first Table is parsed. -/
theorem claim7_counterexample :
    emptyColsCfg.keepColumns = some [] ∧
    DFBuilder.build emptyColsCfg (envOne "a" tabAB) = .error .keepIndexError := by
  decide

theorem buildStep_stack (fsX : List String) (idx : Nat) (c : String)
    (cs : List String) (big : Option Table) (t : Table) (hc : c ≠ "*") :
    buildStep (stackCfg (c :: cs) fsX) idx ⟨some (c :: cs), big⟩ t =
      (match Table.projectE t (c :: cs) with
       | .error e => .error e
       | .ok td => .ok ⟨some (c :: cs), some (stackAppend big td)⟩) := by
  cases hpe : Table.projectE t (c :: cs) with
  | error e =>
    rw [buildStep_errClean (stackCfg (c :: cs) fsX) idx ⟨some (c :: cs), big⟩ t
      (c :: cs) e (resolveKeep_fixed c cs t.cols hc) hpe]
  | ok td =>
    rw [buildStep_ok3 (stackCfg (c :: cs) fsX) idx ⟨some (c :: cs), big⟩ t
      (c :: cs) td ("", "") (resolveKeep_fixed c cs t.cols hc) hpe rfl]
    cases big <;> rfl

theorem buildFile_stack (fsX : List String) (idx : Nat) (c : String)
    (cs : List String) (hc : c ≠ "*") :
    ∀ (ts : List Table) (big : Option Table),
      (List.foldlM (buildStep (stackCfg (c :: cs) fsX) idx) ⟨some (c :: cs), big⟩ ts :
          Except BuildError LoopState) =
        (match ts.mapM (fun t => Table.projectE t (c :: cs)) with
         | .error e => .error e
         | .ok tds => .ok ⟨some (c :: cs), stackFoldTables big tds⟩) := by
  intro ts
  induction ts with
  | nil => intro big; rfl
  | cons t ts ih =>
    intro big
    rw [List.foldlM_cons, buildStep_stack fsX idx c cs big t hc]
    cases hpe : Table.projectE t (c :: cs) with
    | error e =>
      rw [List.mapM_cons, hpe]
      rfl
    | ok td =>
      show (List.foldlM (buildStep (stackCfg (c :: cs) fsX) idx)
          ⟨some (c :: cs), some (stackAppend big td)⟩ ts : Except BuildError LoopState) = _
      rw [ih (some (stackAppend big td)), List.mapM_cons, hpe]
      cases hm : ts.mapM (fun t => Table.projectE t (c :: cs)) with
      | error e => rfl
      | ok tds => rfl

theorem buildFiles_stack (parse : String → List Table) (c : String)
    (cs : List String) (hc : c ≠ "*") (fsX : List String) :
    ∀ (fs : List String) (idx : Nat) (big : Option Table),
      buildFiles (stackCfg (c :: cs) fsX) (listEnv parse) ⟨some (c :: cs), big⟩ idx fs =
        (match fs.mapM (fun f => (parse f).mapM (fun t => Table.projectE t (c :: cs))) with
         | .error e => .error e
         | .ok tdss => .ok ⟨some (c :: cs), stackFoldAll big tdss⟩) := by
  intro fs
  induction fs with
  | nil => intro idx big; rfl
  | cons f fs ih =>
    intro idx big
    rw [buildFiles, buildFile]
    rw [show (listEnv parse).parse f = parse f from rfl]
    rw [buildFile_stack fsX idx c cs hc (parse f) big]
    cases h1 : (parse f).mapM (fun t => Table.projectE t (c :: cs)) with
    | error e =>
      rw [List.mapM_cons, h1]
      rfl
    | ok tds =>
      show buildFiles (stackCfg (c :: cs) fsX) (listEnv parse)
        ⟨some (c :: cs), stackFoldTables big tds⟩ (idx + 1) fs = _
      rw [ih (idx + 1) (stackFoldTables big tds), List.mapM_cons, h1]
      cases h2 : fs.mapM (fun f => (parse f).mapM (fun t => Table.projectE t (c :: cs))) with
      | error e => rfl
      | ok tdss => rfl

theorem optRows_stackAppend (big : Option Table) (td : Table) :
    optRows (some (stackAppend big td)) = optRows big ++ td.rows := by
  cases big <;> rfl

theorem optRows_stackFoldTables (tds : List Table) :
    ∀ big : Option Table,
      optRows (stackFoldTables big tds) = optRows big ++ (tds.map Table.rows).flatten := by
  induction tds with
  | nil => intro big; simp [stackFoldTables]
  | cons td tds ih =>
    intro big
    show optRows (stackFoldTables (some (stackAppend big td)) tds) = _
    rw [ih (some (stackAppend big td)), optRows_stackAppend]
    simp

theorem optRows_stackFoldAll (tdss : List (List Table)) :
    ∀ big : Option Table,
      optRows (stackFoldAll big tdss) = optRows big ++ rowsAll tdss := by
  induction tdss with
  | nil => intro big; simp [stackFoldAll, rowsAll]
  | cons tds tdss ih =>
    intro big
    show optRows (stackFoldAll (stackFoldTables big tds) tdss) = _
    rw [ih (stackFoldTables big tds), optRows_stackFoldTables]
    simp [rowsAll]

theorem rowsAll_append (a b : List (List Table)) :
    rowsAll (a ++ b) = rowsAll a ++ rowsAll b := by
  simp [rowsAll]

theorem build_stack_closed (parse : String → List Table) (c : String)
    (cs : List String) (hc : c ≠ "*") (fs : List String) :
    DFBuilder.build (stackCfg (c :: cs) fs) (listEnv parse) =
      (match fs.mapM (fun f => (parse f).mapM (fun t => Table.projectE t (c :: cs))) with
       | .error e => .error e
       | .ok tdss => .ok (⟨stackFoldAll none tdss, some (c :: cs)⟩ : BuildOk)) := by
  have hexp : expandFiles (stackCfg (c :: cs) fs) (listEnv parse) = fs := by
    show fs.foldl (fun a b => a ++ [b]) [] = fs
    have haux : ∀ (l : List String) (acc : List String),
        l.foldl (fun a b => a ++ [b]) acc = acc ++ l := by
      intro l
      induction l with
      | nil => intro acc; simp
      | cons x xs ih => intro acc; rw [List.foldl_cons, ih]; simp
    rw [haux fs []]
    rfl
  have h0 : DFBuilder.build (stackCfg (c :: cs) fs) (listEnv parse) =
      (match buildFiles (stackCfg (c :: cs) fs) (listEnv parse) ⟨some (c :: cs), none⟩ 0
          (expandFiles (stackCfg (c :: cs) fs) (listEnv parse)) with
       | .error e => .error e
       | .ok st => .ok (⟨st.big, st.keep⟩ : BuildOk)) := rfl
  rw [h0, hexp, buildFiles_stack parse c cs hc fs fs 0 none]
  cases hm : fs.mapM (fun f => (parse f).mapM (fun t => Table.projectE t (c :: cs))) with
  | error e => rfl
  | ok tdss => rfl

/-- C8: restricted to stack builds with no suffix list and a fixed
non-wildcard column list, build is the in-order left-fold of row
concatenation over the parsed-and-projected Tables, so for any
partition of the expanded source list into a prefix and a tail run, the
rows of the full build are exactly the rows of the first part followed
by the rows of the second, keys included; with a configured suffix list
this fails, because each run renames its own first frame with
suffixes[0]. -/
theorem claim8_stack_partition (parse : String → List Table) (c : String)
    (cs : List String) (hc : c ≠ "*") (fs1 fs2 : List String) (r1 r2 : BuildOk)
    (h1 : DFBuilder.build (stackCfg (c :: cs) fs1) (listEnv parse) = .ok r1)
    (h2 : DFBuilder.build (stackCfg (c :: cs) fs2) (listEnv parse) = .ok r2) :
    ∃ r : BuildOk,
      DFBuilder.build (stackCfg (c :: cs) (fs1 ++ fs2)) (listEnv parse) = .ok r ∧
      optRows r.table = optRows r1.table ++ optRows r2.table := by
  rw [build_stack_closed parse c cs hc fs1] at h1
  rw [build_stack_closed parse c cs hc fs2] at h2
  cases hm1 : fs1.mapM (fun f => (parse f).mapM (fun t => Table.projectE t (c :: cs))) with
  | error e => rw [hm1] at h1; exact absurd h1 (by simp)
  | ok tdss1 =>
    cases hm2 : fs2.mapM (fun f => (parse f).mapM (fun t => Table.projectE t (c :: cs))) with
    | error e => rw [hm2] at h2; exact absurd h2 (by simp)
    | ok tdss2 =>
      rw [hm1] at h1
      rw [hm2] at h2
      have hr1 : r1 = ⟨stackFoldAll none tdss1, some (c :: cs)⟩ :=
        (Except.ok.inj h1).symm
      have hr2 : r2 = ⟨stackFoldAll none tdss2, some (c :: cs)⟩ :=
        (Except.ok.inj h2).symm
      refine ⟨⟨stackFoldAll none (tdss1 ++ tdss2), some (c :: cs)⟩, ?_, ?_⟩
      · rw [build_stack_closed parse c cs hc (fs1 ++ fs2), List.mapM_append, hm1, hm2]
        rfl
      · rw [hr1, hr2]
        show optRows (stackFoldAll none (tdss1 ++ tdss2)) =
          optRows (stackFoldAll none tdss1) ++ optRows (stackFoldAll none tdss2)
        rw [show stackFoldAll none (tdss1 ++ tdss2) =
            stackFoldAll (stackFoldAll none tdss1) tdss2 from
          List.foldl_append _ _ tdss1 tdss2]
        rw [optRows_stackFoldAll tdss2 (stackFoldAll none tdss1),
          optRows_stackFoldAll tdss2 none]
        rfl

theorem claim8_witness :
    ∃ r : BuildOk,
      DFBuilder.build (stackCfg ["val"] (["x"] ++ ["y"])) (listEnv stackParse) = .ok r ∧
      optRows r.table =
        optRows (⟨some tabX, some ["val"]⟩ : BuildOk).table ++
        optRows (⟨some tabY, some ["val"]⟩ : BuildOk).table :=
  claim8_stack_partition stackParse "val" [] (by decide) ["x"] ["y"]
    ⟨some tabX, some ["val"]⟩ ⟨some tabY, some ["val"]⟩ (by decide) (by decide)

/-- C8 counterexample: with a configured suffix list the partition
property fails: building [x,y] in one run renames only the first frame
(columns val_a then bare val), while building [x] and [y] separately
renames both first frames with suffixes[0], so the row multisets
differ. -/
theorem claim8_counterexample :
    DFBuilder.build (stackSuffixCfg ["x", "y"]) (envTwo "x" "y" tabX tabY) =
      .ok ⟨some ⟨["val_a", "val"], [(0, [("val_a", 10)]), (0, [("val", 20)])]⟩,
           some ["val"]⟩ ∧
    DFBuilder.build (stackSuffixCfg ["x"]) (envTwo "x" "y" tabX tabY) =
      .ok ⟨some ⟨["val_a"], [(0, [("val_a", 10)])]⟩, some ["val"]⟩ ∧
    DFBuilder.build (stackSuffixCfg ["y"]) (envTwo "x" "y" tabX tabY) =
      .ok ⟨some ⟨["val_a"], [(0, [("val_a", 20)])]⟩, some ["val"]⟩ ∧
    Multiset.ofList ([(0, [("val_a", 10)]), (0, [("val", 20)])] : List (Int × Row)) ≠
      Multiset.ofList
        (([(0, [("val_a", 10)])] ++ [(0, [("val_a", 20)])] : List (Int × Row))) := by
  refine ⟨by decide, by decide, by decide, ?_⟩
  decide

end FrameJig
